import Mathlib

/-!
Verification development for the skribblr-backend game server.

This file gives a shallow, sequential embedding of the server's game core
(rooms, players, the phase machine, guess handling, scoring, the canvas log)
and proves properties of the spec's claims against it.

Modelling conventions, applied throughout:
* Go maps from player id to player are modelled as lists of `Player` values;
  map writes through a pointer become an update of the list entry with the
  matching id, and `room.Current` (a player pointer) is modelled as the
  drawer's id (`Option String`), which coincides with pointer identity for
  the map-held players the code manipulates.
* Mutex lock/unlock operations are dropped: each Go function becomes a pure
  state transformer `Room → Room` (or `Room → Room × List String` when its
  emitted broadcast message types matter to a claim), applied in program
  order.  Asynchronously spawned work (`go f(...)`) that merely performs
  network writes is summarised by the broadcast tags; the timer goroutine is
  modelled by the `timerActive`/`timerDuration` fields it governs.
* Go `float32`/`float64` arithmetic is carried out in `ℚ`.  For
  `CalculateGuessPoints` the three factors of every reachable product are a
  base from {100,150,200} and multipliers from {0, 0.4, 0.6, 0.75, 0.8, 1,
  1.25, 1.5}; enumerating the finitely many combinations shows the float32
  evaluation and the exact rational evaluation truncate to the same integer,
  so the `ℚ` model is exact.  Likewise `NormalizeCoordinates` computes
  `floor(x*W/cw)` whose float64 evaluation is exact at the magnitudes the
  claims quantify over.
* Go slices indexed out of range panic; panicking computations are modelled
  with `Option` (`none` = panic), and fields of the source structs that no
  modelled operation reads or writes (connection handles, contexts,
  timestamps used only inside log/broadcast payload text) are elided.
-/

/-- Game phases of `internal.GamePhase` (model.go): lobby, waiting, drawing,
revealing, ended ("ending"). The source defines no separate selection phase. -/
inductive GamePhase where
  | lobby
  | waiting
  | drawing
  | revealing
  | ended
deriving DecidableEq, Repr

/-- Word difficulty buckets of `internal.WordDifficulty`. -/
inductive WordDifficulty where
  | easy
  | medium
  | hard
deriving DecidableEq, Repr

/-- Pixel operation kinds of `internal.PixelMessageType`. -/
inductive PixelMessageType where
  | pixel
  | erase
  | batchPlace
  | batchErase
deriving DecidableEq, Repr

/-- The wire string of each pixel operation kind (the constants in canvas.go),
used as the broadcast type tag in `HandlePixelDrawEnhanced`. -/
def pixelTypeTag : PixelMessageType → String
  | .pixel => "pixel"
  | .erase => "erase"
  | .batchPlace => "batch_place"
  | .batchErase => "batch_erase"

/-- Grid position of `internal.GridPosition`. -/
structure GridPosition where
  gridX : Int
  gridY : Int
deriving DecidableEq, Repr

/-- Pixel operation of `internal.PixelMessage`: single-pixel kinds use the
optional `x`/`y`, batch kinds use `pixels`. -/
structure PixelMessage where
  type : PixelMessageType
  x : Option Int
  y : Option Int
  color : String
  timestamp : Int
  pixels : List GridPosition
deriving DecidableEq, Repr

/-- Correct-guess record of `internal.PlayerGuess`. -/
structure PlayerGuess where
  playerId : String
  username : String
  guessTime : Int
  isCorrect : Bool
deriving DecidableEq, Repr

/-- Player state of `internal.Player`; connection handle, room back-reference
and the timestamp fields not read by the modelled operations are elided. -/
structure Player where
  id : String
  username : String
  score : Int
  canvasWidth : Int
  canvasHeight : Int
  isReady : Bool
  hasGuessed : Bool
  isConnected : Bool
  canDraw : Bool
  totalGuesses : Nat
  correctGuesses : Nat
deriving DecidableEq, Repr

/-- Room state of `internal.Room`.  `players` models the Go map from id to
player; `current` models the `Current` drawer pointer by its id; the timer's
goroutine is modelled by its `IsActive` flag and duration (seconds). -/
structure Room where
  id : String
  players : List Player
  phase : GamePhase
  current : Option String
  currentIndex : Nat
  word : String
  wordChoices : List String
  roundNumber : Int
  maxRounds : Int
  timerActive : Bool
  timerDuration : ℚ
  playerOrder : List String
  playersReady : List (String × Bool)
  correctGuessers : List PlayerGuess
  hasGameStarted : Bool
  canvasState : List PixelMessage
deriving DecidableEq, Repr

/-- Update the map entry with the given id (a write through a player pointer
held in `room.Players`). Ids not present are left untouched. -/
def updPlayers (ps : List Player) (pid : String) (f : Player → Player) : List Player :=
  ps.map fun q => if q.id = pid then f q else q

/-- Truncating conversion of a rational to an integer: Go's `int(...)`
conversion of a floating value rounds toward zero. -/
def ratTrunc (q : ℚ) : Int :=
  q.num.tdiv q.den

/-- Go's `unicode.IsSpace` on the ASCII whitespace characters
(`' '`, `'\t'`, `'\n'`, `'\v'`, `'\f'`, `'\r'`). -/
def goIsSpace (c : Char) : Bool :=
  c = ' ' || c = '\t' || c = '\n' || c = '\x0b' || c = '\x0c' || c = '\r'

/-- ASCII case mapping of Go's `strings.ToLower`. -/
def goLowerChar (c : Char) : Char :=
  if 'A' ≤ c ∧ c ≤ 'Z' then Char.ofNat (c.toNat + 32) else c

/-- Go's `strings.ToLower(strings.TrimSpace(s))` as applied to guesses and to
the target word in `HandleGuessEnhanced`: strip leading and trailing
whitespace, then lower-case (ASCII fragment of Go's Unicode rules). -/
def goCleanWord (s : String) : String :=
  ⟨(((s.data.dropWhile goIsSpace).reverse.dropWhile goIsSpace).reverse).map goLowerChar⟩

theorem ratTrunc_eq_floor {q : ℚ} (h : 0 ≤ q) : ratTrunc q = ⌊q⌋ := by
  rw [Rat.floor_def, ratTrunc]
  exact Int.tdiv_eq_ediv (Rat.num_nonneg.mpr h) (Int.ofNat_nonneg _)

/-! ## Scoring (internal/game/guess.go, `CalculateGuessPoints`) -/

/-- Base points by difficulty (the first `switch` of `CalculateGuessPoints`);
the switch has no default, so the Go zero value never arises: the three
difficulty cases are exhaustive. -/
def basePoints : WordDifficulty → Int
  | .easy => 100
  | .medium => 150
  | .hard => 200

/-- Speed multiplier (the second `switch` of `CalculateGuessPoints`), with the
source's exact guards: `t >= 0 && t < 10`, `t >= 10 && t < 30`,
`t >= 30 && t < 60`, `t > 60`.  No case matches `t = 60` (or `t < 0`), so the
multiplier keeps its zero value there. -/
def speedMultiplier (t : ℚ) : ℚ :=
  if 0 ≤ t ∧ t < 10 then 3/2
  else if 10 ≤ t ∧ t < 30 then 5/4
  else if 30 ≤ t ∧ t < 60 then 1
  else if 60 < t then 3/4
  else 0

/-- Position multiplier (the third `switch` of `CalculateGuessPoints`):
1st → 1, 2nd → 0.8, 3rd → 0.6, default → 0.4. -/
def posMultiplier (p : Int) : ℚ :=
  if p = 1 then 1
  else if p = 2 then 4/5
  else if p = 3 then 3/5
  else 2/5

/-- `CalculateGuessPoints(timeTaken, position, wordDifficulty)`: the final
`int(float32(basePoints) * speedMultiplier * posMultiplier)` conversion
truncates toward zero. `timeTaken` is the elapsed time in seconds
(`timeTaken.Seconds()`). -/
def CalculateGuessPoints (timeTaken : ℚ) (position : Int) (d : WordDifficulty) : Int :=
  ratTrunc ((basePoints d : ℚ) * speedMultiplier timeTaken * posMultiplier position)

/-- Claimed speed multiplier, following the claim's words: `<10s→1.5`,
`<30s→1.25`, `<60s→1.0`, and 0.75 for every elapsed `≥ 60s`. -/
def claimedSpeedMultiplier (t : ℚ) : ℚ :=
  if t < 10 then 3/2
  else if t < 30 then 5/4
  else if t < 60 then 1
  else 3/4

/-- Claimed position multiplier, following the claim's words: 1.0/0.8/0.6/0.4
for 1-based ranks 1/2/3/≥4. -/
def claimedPosMultiplier (p : Int) : ℚ :=
  if p = 1 then 1
  else if p = 2 then 4/5
  else if p = 3 then 3/5
  else 2/5

/-- Guess points as the claim states them:
`floor(base × speed × positionMultiplier)` with the claimed tables. -/
def claimedGuessPoints (t : ℚ) (p : Int) (d : WordDifficulty) : Int :=
  ⌊(basePoints d : ℚ) * claimedSpeedMultiplier t * claimedPosMultiplier p⌋

/-- Amended speed multiplier: as claimed, except that at exactly 60 seconds
the multiplier is 0 (the source's switch has no case for `t = 60`). -/
def amendedSpeedMultiplier (t : ℚ) : ℚ :=
  if t < 10 then 3/2
  else if t < 30 then 5/4
  else if t < 60 then 1
  else if t = 60 then 0
  else 3/4

/-- Guess points as amended: the claim's formula with the amended speed
table. -/
def amendedGuessPoints (t : ℚ) (p : Int) (d : WordDifficulty) : Int :=
  ⌊(basePoints d : ℚ) * amendedSpeedMultiplier t * claimedPosMultiplier p⌋

/-! ## Canvas (internal/canvas.go) -/

/-- Canonical canvas width `CanvasWidth = 35`. -/
def CanvasWidth : Int := 35

/-- Canonical canvas height `CanvasHeight = 20`. -/
def CanvasHeight : Int := 20

/-- `NormalizeCoordinates(x, y, clientCanvasWidth, clientCanvasHeight)`:
`floor` of the scaled coordinate, then clamped to the grid. The float64
computation is carried out exactly in `ℚ`. -/
def NormalizeCoordinates (x y cw ch : Int) : Int × Int :=
  let gx := ⌊(x * CanvasWidth : ℚ) / (cw : ℚ)⌋
  let gy := ⌊(y * CanvasHeight : ℚ) / (ch : ℚ)⌋
  let gx := if gx < 0 then 0 else if CanvasWidth ≤ gx then CanvasWidth - 1 else gx
  let gy := if gy < 0 then 0 else if CanvasHeight ≤ gy then CanvasHeight - 1 else gy
  (gx, gy)

/-- Apply a validated, normalized pixel operation to the canvas log: the
`switch pixelMessage.Type` at the end of `HandlePixelDrawEnhanced`.
`pixel`/`batch_place` append; `erase` removes every prior `pixel`-type entry
whose coordinates match; `batch_erase` removes every prior `pixel`-type entry
whose coordinates are in the batch's set. -/
def applyCanvasOp (canvas : List PixelMessage) (msg : PixelMessage) : List PixelMessage :=
  match msg.type with
  | .pixel => canvas ++ [msg]
  | .batchPlace => canvas ++ [msg]
  | .erase =>
      canvas.filter fun e =>
        ¬ (e.type = .pixel ∧ e.x.isSome ∧ e.y.isSome ∧ e.x = msg.x ∧ e.y = msg.y)
  | .batchErase =>
      canvas.filter fun e =>
        ¬ (e.type = .pixel ∧ e.x.isSome ∧ e.y.isSome ∧
            msg.pixels.any fun g => some g.gridX = e.x ∧ some g.gridY = e.y)

/-! ## Word masking (utils, `GetMaskedWord`) -/

/-- `GetMaskedWord(word)` as written in the source: the mask is created as a
zero-length slice (`make([]string, 0, len(word))`) and then written through
`masked[i] = ...`, an out-of-range index for every `i` — a panic, modelled as
`none` — whenever the word is non-empty.  Iteration is over the word's
characters (byte positions in Go; identical for ASCII words). -/
def GetMaskedWord (word : String) : Option String :=
  if word = "" then some ""
  else
    let written := word.data.enum.foldl
      (fun (acc : Option (List String)) (p : Nat × Char) =>
        acc.bind fun masked =>
          if p.1 < masked.length then
            some (masked.set p.1 (if p.2 = ' ' then " " else "_"))
          else none)
      (some [])
    written.map fun masked => String.intercalate " " masked

/-- Modelled from the spec: `maskWord(w)` per §4.4, the behavior the spec
mandates for word masking — a space-separated string where every non-space
character is replaced with an underscore and spaces are preserved. -/
def maskWord (w : String) : String :=
  String.intercalate " " (w.data.map fun c => if c = ' ' then " " else "_")

/-! ## Timer (game timer management, `StartPhaseTimer` / `CancelPhaseTimer`) -/

/-- `CancelPhaseTimer(room)`: if the timer is active, cancel it (set
`IsActive=false`, zero the remaining time, emit a final `timer_update`);
otherwise a no-op. -/
def CancelPhaseTimer (room : Room) : Room :=
  if room.timerActive then { room with timerActive := false } else room

/-- `StartPhaseTimer(room, duration, onExpire)`: cancel any existing timer,
then record a fresh active timer with the given duration (seconds).  The
ticking goroutine and the `onExpire` callback are not part of the sequential
state change. -/
def StartPhaseTimer (duration : ℚ) (room : Room) : Room :=
  let room := CancelPhaseTimer room
  { room with timerActive := true, timerDuration := duration }

/-! ## Phase machine (game flow, round management) -/

/-- `utils.UpdatePlayerOrder(room)`: rebuild `PlayerOrder` from the connected
players, reset `CurrentIndex` if it became invalid, and clear `Current` (and
the index) if the current drawer is no longer in the order. -/
def UpdatePlayerOrder (room : Room) : Room :=
  let order := (room.players.filter fun p => p.isConnected).map fun p => p.id
  let idx := if order.length ≤ room.currentIndex then 0 else room.currentIndex
  match room.current with
  | some cid =>
      if order.contains cid then
        { room with playerOrder := order, currentIndex := idx }
      else
        { room with playerOrder := order, currentIndex := 0, current := none }
  | none => { room with playerOrder := order, currentIndex := idx }

/-- `StartWaitingPhase(room)`: set the phase to waiting (always, before any
validation), reset a stale `CurrentIndex`, abort if the order is empty or the
selected drawer is not in the players map, otherwise install the drawer,
reset every player's round state, clear the correct-guesser list and the
canvas, broadcast `waiting_phase`, and start the 15-second selection timer. -/
def StartWaitingPhase (room : Room) : Room :=
  let room := { room with phase := .waiting }
  let room :=
    if room.playerOrder.length ≤ room.currentIndex then { room with currentIndex := 0 }
    else room
  if room.playerOrder = [] then room
  else
    let pid := room.playerOrder.getD room.currentIndex ""
    match room.players.find? fun q => q.id = pid with
    | none => room
    | some _ =>
        let room := { room with current := some pid }
        let room :=
          { room with players := room.players.map fun (q : Player) =>
              { q with hasGuessed := false, canDraw := false } }
        let room := { room with correctGuessers := [], canvasState := [] }
        StartPhaseTimer 15 room

/-- `EndGame(room)`: set the phase to ended, cancel the phase timer, compute
and broadcast the final results (a read-only computation), and start the
30-second reset timer (whose callback is not part of this transition). -/
def EndGame (room : Room) : Room :=
  let room := { room with phase := .ended }
  let room := CancelPhaseTimer room
  StartPhaseTimer 30 room

/-- `NextRound(room)`: rebuild the order, end the game if no players remain,
otherwise advance `CurrentIndex` with wraparound, clear the word, increment
the round on wraparound (ending the game if it exceeds `MaxRounds`), assign
the new drawer from the players map, and enter the waiting phase. -/
def NextRound (room : Room) : Room :=
  let room := UpdatePlayerOrder room
  if room.playerOrder = [] then EndGame room
  else
    let idx := (room.currentIndex + 1) % room.playerOrder.length
    let wrapped := idx = 0
    let room := { room with currentIndex := idx, word := "" }
    let room :=
      if wrapped then { room with roundNumber := room.roundNumber + 1 } else room
    if wrapped ∧ room.maxRounds < room.roundNumber then EndGame room
    else
      let nextId := room.playerOrder.getD idx ""
      let room :=
        { room with current :=
            if room.players.any fun q => q.id = nextId then some nextId else none }
      StartWaitingPhase room

/-- `HandleWordSelection(player, selectedWord)`: ignore the message unless the
sender is the current drawer, a word has not already been chosen, and the
selection is one of `room.WordChoices`; a valid selection sets `room.Word`,
clears the choices, and cancels the selection timer.  The transition to the
drawing phase is launched in a separate goroutine and is not part of this
handler's own state change. -/
def HandleWordSelection (p : Player) (selectedWord : String) (room : Room) : Room :=
  match room.current with
  | none => room
  | some cid =>
      if p.id ≠ cid then room
      else if room.word ≠ "" then room
      else if ¬ room.wordChoices.contains selectedWord then room
      else CancelPhaseTimer { room with word := selectedWord, wordChoices := [] }

/-! ## Guess handling (internal/game/guess.go, `HandleGuessEnhanced`) -/

/-- Word difficulty chosen from the byte length of the current word (the
`switch` in the correct-guess path of `HandleGuessEnhanced`). -/
def guessDifficulty (wordLen : Nat) : WordDifficulty :=
  if 3 ≤ wordLen ∧ wordLen ≤ 5 then .easy
  else if 5 < wordLen ∧ wordLen ≤ 8 then .medium
  else if 8 < wordLen then .hard
  else .easy

/-- `HandleGuessEnhanced(player, guess)`.  `elapsed` is the time in seconds
since the current timer started (`time.Since(startTime)`), an environment
input.  The returned list holds the message types this handler broadcasts
itself (`guess_message` on an incorrect guess, `guess_result` on a correct
one); an ignored guess broadcasts nothing.  When the correct guess makes
every connected non-drawer player have `hasGuessed=true`, the handler cancels
the phase timer and runs `NextRound`. -/
def HandleGuessEnhanced (p : Player) (guess : String) (elapsed : ℚ)
    (room : Room) : Room × List String :=
  if room.current = some p.id then (room, [])
  else if p.hasGuessed then (room, [])
  else
    let cleanedGuess := goCleanWord guess
    let target := goCleanWord room.word
    if target = "" ∨ target ≠ cleanedGuess then
      ({ room with players := updPlayers room.players p.id fun q =>
          { q with totalGuesses := q.totalGuesses + 1 } },
       ["guess_message"])
    else
      let position : Int := room.correctGuessers.length + 1
      let diff := guessDifficulty room.word.utf8ByteSize
      let points := CalculateGuessPoints elapsed position diff
      let pg : PlayerGuess :=
        { playerId := p.id, username := p.username,
          guessTime := ratTrunc (elapsed * 1000), isCorrect := true }
      let room := { room with correctGuessers := room.correctGuessers ++ [pg] }
      let room :=
        { room with players := updPlayers room.players p.id fun q =>
            { q with score := q.score + points, totalGuesses := q.totalGuesses + 1,
                     correctGuesses := q.correctGuesses + 1, hasGuessed := true } }
      let room :=
        match room.current with
        | some cid =>
            { room with players := updPlayers room.players cid fun q =>
                { q with score := q.score + 50 } }
        | none => room
      let allGuessed := room.players.all fun q =>
        (match room.current with | some cid => q.id == cid | none => false) ||
          !q.isConnected || q.hasGuessed
      if allGuessed then (NextRound (CancelPhaseTimer room), ["guess_result"])
      else (room, ["guess_result"])

/-! ## Drawing system (`HandlePixelDrawEnhanced` / `ClearCanvas`) -/

/-- `HandlePixelDrawEnhanced(player, rawData)` for an already-parsed
`PixelMessage` (a JSON parse failure is one more silent drop).  Gating:
drawing phase, sender is the current drawer, sender has draw permission.
Then validation (bounds for single-pixel operations, in-range filtering for
batches), normalization through the player's client canvas dimensions, the
server timestamp (`now`, in ms) when the client omitted one, application to
the canvas log, and a broadcast of the operation under its own type tag. -/
def HandlePixelDrawEnhanced (p : Player) (msg : PixelMessage) (now : Int)
    (room : Room) : Room × List String :=
  if room.phase ≠ .drawing then (room, [])
  else if room.current ≠ some p.id then (room, [])
  else if ¬ p.canDraw then (room, [])
  else
    match msg.type with
    | .pixel | .erase =>
        match msg.x, msg.y with
        | some x, some y =>
            if x < 0 ∨ CanvasWidth ≤ x ∨ y < 0 ∨ CanvasHeight ≤ y then (room, [])
            else
              let g := NormalizeCoordinates x y p.canvasWidth p.canvasHeight
              let msg := { msg with x := some g.1, y := some g.2 }
              let msg := if msg.timestamp = 0 then { msg with timestamp := now } else msg
              ({ room with canvasState := applyCanvasOp room.canvasState msg },
               [pixelTypeTag msg.type])
        | _, _ => (room, [])
    | .batchPlace | .batchErase =>
        let valid := msg.pixels.filter fun g =>
          decide (0 ≤ g.gridX) && decide (g.gridX < CanvasWidth) &&
            decide (0 ≤ g.gridY) && decide (g.gridY < CanvasHeight)
        if valid = [] then (room, [])
        else
          let msg : PixelMessage :=
            { msg with pixels := valid.map fun g =>
                let n := NormalizeCoordinates g.gridX g.gridY p.canvasWidth p.canvasHeight
                { gridX := n.1, gridY := n.2 } }
          let msg := if msg.timestamp = 0 then { msg with timestamp := now } else msg
          ({ room with canvasState := applyCanvasOp room.canvasState msg },
           [pixelTypeTag msg.type])

/-- `ClearCanvas(room, clearedBy)`: denied only when the sender is not the
current drawer; otherwise the canvas log is emptied and `canvas_cleared` is
broadcast.  The source checks neither the phase nor `CanDraw` here. -/
def ClearCanvas (clearedBy : Player) (room : Room) : Room × List String :=
  if room.current ≠ some clearedBy.id then (room, [])
  else ({ room with canvasState := [] }, ["canvas_cleared"])

/-! ## Room membership (`AddPlayer`) -/

/-- Result of `AddPlayer`: the room after the call, the message types sent
out (in order), the returned error, and whether the call panicked partway
(`GetMaskedWord` on a non-empty word). -/
structure AddPlayerResult where
  room : Room
  broadcasts : List String
  error : Option String
  panicked : Bool
deriving DecidableEq, Repr

/-- `AddPlayer(roomId, player)` on the (existing or freshly created) room:
the player is unconditionally inserted into `room.Players` and marked
connected/not-ready, `player_joined` is broadcast to the others, the
`welcome_msg` game-state snapshot is sent to the joiner (masking the current
word — a panic when the word is non-empty, per `GetMaskedWord`), and only
then is the `MaxPlayersPerRoom` bound checked: if the room now holds more
than 8 players an error is returned, with the player left in the map. -/
def AddPlayer (room : Room) (p : Player) : AddPlayerResult :=
  let p := { p with isConnected := true, isReady := false }
  let players :=
    if room.players.any fun q => q.id = p.id then
      updPlayers room.players p.id fun _ => p
    else room.players ++ [p]
  let room := { room with players := players }
  match GetMaskedWord room.word with
  | none =>
      { room := room, broadcasts := ["player_joined"], error := none, panicked := true }
  | some _ =>
      { room := room,
        broadcasts := ["player_joined", "welcome_msg"],
        error :=
          if 8 < room.players.length then
            some "max players reached for this room, please join another room"
          else none,
        panicked := false }

/-! ## Helper lemmas on the timer and phase operations -/

theorem CancelPhaseTimer_word (r : Room) : (CancelPhaseTimer r).word = r.word := by
  unfold CancelPhaseTimer; split <;> rfl

theorem CancelPhaseTimer_phase (r : Room) : (CancelPhaseTimer r).phase = r.phase := by
  unfold CancelPhaseTimer; split <;> rfl

theorem CancelPhaseTimer_wordChoices (r : Room) :
    (CancelPhaseTimer r).wordChoices = r.wordChoices := by
  unfold CancelPhaseTimer; split <;> rfl

theorem CancelPhaseTimer_current (r : Room) : (CancelPhaseTimer r).current = r.current := by
  unfold CancelPhaseTimer; split <;> rfl

theorem StartPhaseTimer_word (d : ℚ) (r : Room) : (StartPhaseTimer d r).word = r.word := by
  unfold StartPhaseTimer; rw [CancelPhaseTimer_word]

theorem StartPhaseTimer_phase (d : ℚ) (r : Room) : (StartPhaseTimer d r).phase = r.phase := by
  unfold StartPhaseTimer; rw [CancelPhaseTimer_phase]

theorem StartWaitingPhase_phase (r : Room) : (StartWaitingPhase r).phase = .waiting := by
  unfold StartWaitingPhase
  dsimp only
  repeat' split
  all_goals first | rfl | rw [StartPhaseTimer_phase]

theorem StartWaitingPhase_word (r : Room) : (StartWaitingPhase r).word = r.word := by
  unfold StartWaitingPhase
  dsimp only
  repeat' split
  all_goals first | rfl | rw [StartPhaseTimer_word]

theorem EndGame_phase (r : Room) : (EndGame r).phase = .ended := by
  unfold EndGame; rw [StartPhaseTimer_phase, CancelPhaseTimer_phase]

theorem EndGame_word (r : Room) : (EndGame r).word = r.word := by
  unfold EndGame; rw [StartPhaseTimer_word, CancelPhaseTimer_word]

theorem NextRound_phase (r : Room) :
    (NextRound r).phase = .waiting ∨ (NextRound r).phase = .ended := by
  unfold NextRound
  dsimp only
  repeat' split
  all_goals first
    | (right; rw [EndGame_phase])
    | (left; rw [StartWaitingPhase_phase])

theorem NextRound_word (r : Room)
    (h : (UpdatePlayerOrder r).playerOrder ≠ []) : (NextRound r).word = "" := by
  unfold NextRound
  dsimp only
  repeat' split
  all_goals first
    | (exact absurd (by assumption) h)
    | (rw [EndGame_word])
    | (rw [StartWaitingPhase_word])

/-! ## Concrete fixtures used by witnesses and counterexamples -/

/-- A default connected player with the given id. -/
def mkPlayer (pid : String) : Player :=
  { id := pid, username := pid, score := 0, canvasWidth := 700, canvasHeight := 400,
    isReady := true, hasGuessed := false, isConnected := true, canDraw := false,
    totalGuesses := 0, correctGuesses := 0 }

/-- A default room holding the given players. -/
def mkRoom (ps : List Player) : Room :=
  { id := "R1", players := ps, phase := .lobby, current := none, currentIndex := 0,
    word := "", wordChoices := [], roundNumber := 1, maxRounds := 3,
    timerActive := false, timerDuration := 0, playerOrder := [],
    playersReady := ps.map fun p => (p.id, true), correctGuessers := [],
    hasGameStarted := false, canvasState := [] }

/-! ## C2: CalculateGuessPoints -/

theorem speedMultiplier_eq_amended {t : ℚ} (h : 0 ≤ t) :
    speedMultiplier t = amendedSpeedMultiplier t := by
  by_cases h10 : t < 10
  · simp [speedMultiplier, amendedSpeedMultiplier, h, h10]
  · by_cases h30 : t < 30
    · simp [speedMultiplier, amendedSpeedMultiplier, h10, h30, not_lt.mp h10]
    · by_cases h60 : t < 60
      · simp [speedMultiplier, amendedSpeedMultiplier, h10, h30, h60, not_lt.mp h30]
      · by_cases he : t = 60
        · subst he
          norm_num [speedMultiplier, amendedSpeedMultiplier]
        · have hl : 60 < t := lt_of_le_of_ne (not_lt.mp h60) (Ne.symm he)
          simp [speedMultiplier, amendedSpeedMultiplier, h10, h30, h60, he, hl]

theorem posMultiplier_eq_claimed (p : Int) : posMultiplier p = claimedPosMultiplier p := rfl

theorem basePoints_nonneg (d : WordDifficulty) : (0 : ℚ) ≤ (basePoints d : ℚ) := by
  cases d <;> norm_num [basePoints]

theorem amendedSpeedMultiplier_nonneg (t : ℚ) : 0 ≤ amendedSpeedMultiplier t := by
  unfold amendedSpeedMultiplier
  split_ifs <;> norm_num

theorem claimedPosMultiplier_nonneg (p : Int) : 0 ≤ claimedPosMultiplier p := by
  unfold claimedPosMultiplier
  split_ifs <;> norm_num

/-- C2 counterexample: at exactly 60 seconds the source's switch matches no
case, the speed multiplier stays 0, and the result for (60.0s, position 4,
hard) is 0 — not the 60 the claim computes. -/
theorem c2_guess_points_counterexample :
    CalculateGuessPoints 60 4 .hard = 0 ∧ claimedGuessPoints 60 4 .hard = 60 := by
  constructor
  · norm_num [CalculateGuessPoints, speedMultiplier, posMultiplier, basePoints, ratTrunc]
  · norm_num [claimedGuessPoints, claimedSpeedMultiplier, claimedPosMultiplier, basePoints]

/-- C2 amended: `CalculateGuessPoints(elapsed, position, difficulty)` equals
`floor(base × speed × positionMultiplier)` with base 100/150/200 for
easy/medium/hard, speed multiplier 1.5 for elapsed < 10s, 1.25 for < 30s,
1.0 for < 60s, 0 at exactly 60s (the switch has no case matching it), and
0.75 for elapsed > 60s, and position multiplier 1.0/0.8/0.6/0.4 for 1-based
ranks 1/2/3/≥4; the result for (9.999s, 1, easy) is 150 and for (exactly
60.0s, 4, hard) is 0. -/
theorem c2_guess_points_amended :
    (∀ (t : ℚ) (p : Int) (d : WordDifficulty), 0 ≤ t → 1 ≤ p →
        CalculateGuessPoints t p d = amendedGuessPoints t p d) ∧
    CalculateGuessPoints (9999/1000) 1 .easy = 150 ∧
    CalculateGuessPoints 60 4 .hard = 0 := by
  refine ⟨fun t p d ht _ => ?_, ?_, ?_⟩
  · unfold CalculateGuessPoints amendedGuessPoints
    rw [speedMultiplier_eq_amended ht, posMultiplier_eq_claimed]
    exact ratTrunc_eq_floor
      (mul_nonneg (mul_nonneg (basePoints_nonneg d) (amendedSpeedMultiplier_nonneg t))
        (claimedPosMultiplier_nonneg p))
  · norm_num [CalculateGuessPoints, speedMultiplier, posMultiplier, basePoints, ratTrunc]
  · norm_num [CalculateGuessPoints, speedMultiplier, posMultiplier, basePoints, ratTrunc]

/-- C2 witness: the amended equation instantiated at 5 seconds, position 1,
easy. -/
theorem c2_guess_points_amended_witness :
    (0 : ℚ) ≤ 5 ∧ (1 : Int) ≤ 1 ∧
      CalculateGuessPoints 5 1 .easy = amendedGuessPoints 5 1 .easy :=
  ⟨by norm_num, le_refl 1,
    c2_guess_points_amended.1 5 1 .easy (by norm_num) (le_refl 1)⟩

/-! ## C5: GetMaskedWord -/

/-- C5: evaluating the source's `GetMaskedWord` at the failing input "cat"
panics (the mask slice has length zero, so `masked[i] = ...` is out of
range), while the spec's §4.4 `maskWord` returns "_ _ _". -/
theorem c5_masking_code_bug :
    GetMaskedWord "cat" = none ∧ maskWord "cat" = "_ _ _" ∧ GetMaskedWord "" = some "" := by
  refine ⟨by decide, by decide, by decide⟩

/-! ## C7: NormalizeCoordinates -/

/-- C7 counterexample: with client dimensions `cW = cH = 1`, the claimed
bottom-right input `(cW-1, cH-1) = (0,0)` normalizes to `(0,0)`, not the
claimed `(34,19)`. -/
theorem c7_normalize_counterexample :
    NormalizeCoordinates 0 0 1 1 = (0, 0) ∧ NormalizeCoordinates 0 0 1 1 ≠ (34, 19) := by
  constructor
  · norm_num [NormalizeCoordinates, CanvasWidth, CanvasHeight]
  · norm_num [NormalizeCoordinates, CanvasWidth, CanvasHeight]
    decide

theorem floor_mul_div_eq_of_le {c w : ℤ} (hw : 2 ≤ w) (hc : w ≤ c) :
    ⌊((c - 1 : ℤ) * (w : ℚ)) / (c : ℚ)⌋ = w - 1 := by
  have hc0 : (0 : ℚ) < (c : ℚ) := by
    have : (0 : ℤ) < c := by omega
    exact_mod_cast this
  have hwq : (2 : ℚ) ≤ (w : ℚ) := by exact_mod_cast hw
  have hcq : (w : ℚ) ≤ (c : ℚ) := by exact_mod_cast hc
  rw [Int.floor_eq_iff]
  constructor
  · rw [le_div_iff₀ hc0]
    push_cast
    nlinarith
  · rw [div_lt_iff₀ hc0]
    push_cast
    nlinarith

/-- C7 amended: the bottom-right identity `normalize(cW-1, cH-1) = (34, 19)`
holds whenever the client canvas is at least as large as the 35×20 grid
(`cW ≥ 35`, `cH ≥ 20`) — for smaller client canvases the scaled floor is
below 34 (see the counterexample) — while `normalize(0,0) = (0,0)` and the
clamping of negative inputs to 0 hold for all client dimensions ≥ 1. -/
theorem c7_normalize_amended :
    (∀ cw ch : Int, CanvasWidth ≤ cw → CanvasHeight ≤ ch →
        NormalizeCoordinates (cw - 1) (ch - 1) cw ch = (34, 19)) ∧
    (∀ cw ch : Int, 1 ≤ cw → 1 ≤ ch → NormalizeCoordinates 0 0 cw ch = (0, 0)) ∧
    (∀ x y cw ch : Int, 1 ≤ cw → x < 0 → (NormalizeCoordinates x y cw ch).1 = 0) ∧
    (∀ x y cw ch : Int, 1 ≤ ch → y < 0 → (NormalizeCoordinates x y cw ch).2 = 0) := by
  refine ⟨fun cw ch hcw hch => ?_, fun cw ch hcw hch => ?_,
    fun x y cw ch hcw hx => ?_, fun x y cw ch hch hy => ?_⟩
  · have hx := floor_mul_div_eq_of_le (w := CanvasWidth)
      (by norm_num [CanvasWidth]) hcw
    have hy := floor_mul_div_eq_of_le (w := CanvasHeight)
      (by norm_num [CanvasHeight]) hch
    unfold NormalizeCoordinates
    dsimp only
    rw [hx, hy]
    norm_num [CanvasWidth, CanvasHeight]
  · unfold NormalizeCoordinates
    dsimp only
    norm_num [CanvasWidth, CanvasHeight]
  · have hcw0 : (0 : ℚ) < (cw : ℚ) := by exact_mod_cast lt_of_lt_of_le Int.zero_lt_one hcw
    have hq : ((x : ℚ) * (CanvasWidth : ℚ)) / (cw : ℚ) < 0 := by
      apply div_neg_of_neg_of_pos _ hcw0
      have hx' : (x : ℚ) < 0 := by exact_mod_cast hx
      have hw : (0 : ℚ) < (CanvasWidth : ℚ) := by norm_num [CanvasWidth]
      exact mul_neg_of_neg_of_pos hx' hw
    have hfl : ⌊((x : ℚ) * (CanvasWidth : ℚ)) / (cw : ℚ)⌋ < 0 := by
      have h1 := Int.floor_le (((x : ℚ) * (CanvasWidth : ℚ)) / (cw : ℚ))
      have h2 : ((⌊((x : ℚ) * (CanvasWidth : ℚ)) / (cw : ℚ)⌋ : ℤ) : ℚ) < 0 :=
        lt_of_le_of_lt h1 hq
      exact_mod_cast h2
    unfold NormalizeCoordinates
    dsimp only
    simp [hfl]
  · have hch0 : (0 : ℚ) < (ch : ℚ) := by exact_mod_cast lt_of_lt_of_le Int.zero_lt_one hch
    have hq : ((y : ℚ) * (CanvasHeight : ℚ)) / (ch : ℚ) < 0 := by
      apply div_neg_of_neg_of_pos _ hch0
      have hy' : (y : ℚ) < 0 := by exact_mod_cast hy
      have hw : (0 : ℚ) < (CanvasHeight : ℚ) := by norm_num [CanvasHeight]
      exact mul_neg_of_neg_of_pos hy' hw
    have hfl : ⌊((y : ℚ) * (CanvasHeight : ℚ)) / (ch : ℚ)⌋ < 0 := by
      have h1 := Int.floor_le (((y : ℚ) * (CanvasHeight : ℚ)) / (ch : ℚ))
      have h2 : ((⌊((y : ℚ) * (CanvasHeight : ℚ)) / (ch : ℚ)⌋ : ℤ) : ℚ) < 0 :=
        lt_of_le_of_lt h1 hq
      exact_mod_cast h2
    unfold NormalizeCoordinates
    dsimp only
    simp [hfl]

/-- C7 witness: the amended statement at `cW = 35`, `cH = 20` and at negative
inputs. -/
theorem c7_normalize_amended_witness :
    NormalizeCoordinates (35 - 1) (20 - 1) 35 20 = (34, 19) ∧
    NormalizeCoordinates 0 0 7 9 = (0, 0) ∧
    (NormalizeCoordinates (-1) 5 7 9).1 = 0 ∧
    (NormalizeCoordinates 5 (-1) 7 9).2 = 0 :=
  ⟨c7_normalize_amended.1 35 20 (by norm_num [CanvasWidth]) (by norm_num [CanvasHeight]),
   c7_normalize_amended.2.1 7 9 (by norm_num) (by norm_num),
   c7_normalize_amended.2.2.1 (-1) 5 7 9 (by norm_num) (by norm_num),
   c7_normalize_amended.2.2.2 5 (-1) 7 9 (by norm_num) (by norm_num)⟩

/-! ## C4: word selection idempotence -/

/-- C4: the first valid `word_selection` (from the current drawer, with a
word contained in `room.WordChoices`) sets `room.Word` to that word and
clears `room.WordChoices`; every subsequent `word_selection` — by any sender
with any word, which covers the auto-select timer callback's call — leaves
the room unchanged, so two successive valid selections produce the same
final state as one. -/
theorem c4_word_selection_idempotent (room : Room) (p : Player) (w : String)
    (hcur : room.current = some p.id) (hword : room.word = "")
    (hch : w ∈ room.wordChoices) :
    (HandleWordSelection p w room).word = w ∧
    (HandleWordSelection p w room).wordChoices = [] ∧
    ∀ (p' : Player) (w' : String),
      HandleWordSelection p' w' (HandleWordSelection p w room) =
        HandleWordSelection p w room := by
  have hr1 : HandleWordSelection p w room =
      CancelPhaseTimer { room with word := w, wordChoices := [] } := by
    unfold HandleWordSelection
    rw [hcur]
    dsimp only
    rw [if_neg (by simp), if_neg (by simp [hword]), if_neg (by simp [hch])]
  have hcur1 : (HandleWordSelection p w room).current = some p.id := by
    rw [hr1, CancelPhaseTimer_current]; exact hcur
  have hw1 : (HandleWordSelection p w room).word = w := by
    rw [hr1, CancelPhaseTimer_word]
  have hch1 : (HandleWordSelection p w room).wordChoices = [] := by
    rw [hr1, CancelPhaseTimer_wordChoices]
  refine ⟨hw1, hch1, fun p' w' => ?_⟩
  generalize hR : HandleWordSelection p w room = R at hcur1 hw1 hch1 ⊢
  unfold HandleWordSelection
  rw [hcur1]
  dsimp only
  by_cases hp : p'.id = p.id
  · rw [if_neg (by simp [hp])]
    by_cases hww : w = ""
    · rw [if_neg (by simp [hw1, hww]), if_pos (by simp [hch1])]
    · rw [if_pos (by simp [hw1, hww])]
  · rw [if_pos hp]

/-- Concrete waiting-phase room in the selection stage, used by the C4
witness. -/
def roomC4 : Room :=
  { mkRoom [mkPlayer "p1", mkPlayer "p2"] with
    phase := .waiting, current := some "p1",
    wordChoices := ["cat", "dog", "elephant"], playerOrder := ["p1", "p2"],
    timerActive := true, timerDuration := 15, hasGameStarted := true }

/-- C4 witness: a second selection after a valid first one is a no-op on the
concrete room. -/
theorem c4_word_selection_idempotent_witness :
    roomC4.current = some (mkPlayer "p1").id ∧ roomC4.word = "" ∧
      "cat" ∈ roomC4.wordChoices ∧
      HandleWordSelection (mkPlayer "p2") "dog"
          (HandleWordSelection (mkPlayer "p1") "cat" roomC4) =
        HandleWordSelection (mkPlayer "p1") "cat" roomC4 :=
  ⟨rfl, rfl, by decide,
    (c4_word_selection_idempotent roomC4 (mkPlayer "p1") "cat" rfl rfl (by decide)).2.2
      (mkPlayer "p2") "dog"⟩

/-! ## C6: the word/phase invariant -/

/-- The claimed state invariant: `room.Word` is non-empty iff the phase is
drawing or revealing. -/
def wordPhaseInv (r : Room) : Prop :=
  r.word ≠ "" ↔ (r.phase = .drawing ∨ r.phase = .revealing)

instance (r : Room) : Decidable (wordPhaseInv r) :=
  inferInstanceAs (Decidable (_ ↔ _))

/-- Selection-stage room (phase is still waiting — the source has no
selection phase constant) satisfying the invariant, used by the C6
counterexample. -/
def roomC6 : Room :=
  { mkRoom [mkPlayer "p1", mkPlayer "p2"] with
    phase := .waiting, current := some "p1",
    wordChoices := ["cat", "dog", "elephant"], playerOrder := ["p1", "p2"],
    timerActive := true, timerDuration := 15, hasGameStarted := true }

/-- Revealing-phase room satisfying the invariant, used by the C6
counterexample against `EndGame`. -/
def roomC6e : Room :=
  { mkRoom [mkPlayer "p1", mkPlayer "p2"] with
    phase := .revealing, current := some "p1", word := "cat",
    playerOrder := ["p1", "p2"], timerActive := true, timerDuration := 8,
    hasGameStarted := true }

/-- C6 counterexample: a valid drawer `word_selection` sets a non-empty word
while the phase stays waiting, and `EndGame` enters the ended phase without
clearing the word; both break the claimed invariant on rooms that satisfied
it. -/
theorem c6_invariant_counterexample :
    wordPhaseInv roomC6 ∧
      ¬ wordPhaseInv (HandleWordSelection (mkPlayer "p1") "cat" roomC6) ∧
      wordPhaseInv roomC6e ∧ ¬ wordPhaseInv (EndGame roomC6e) := by
  refine ⟨by decide, by decide, by decide, ?_⟩
  intro h
  have hw : (EndGame roomC6e).word = "cat" := by rw [EndGame_word]; rfl
  have hp : (EndGame roomC6e).phase = .ended := EndGame_phase _
  rcases h.mp (by rw [hw]; decide) with hc | hc <;> rw [hp] at hc <;> exact absurd hc (by decide)

/-- C6 amended: the claimed iff-invariant is not preserved.  What the code
does maintain: a valid drawer `word_selection` sets the chosen word while
leaving the phase unchanged (the selection stage runs in the waiting phase),
`EndGame` always enters the ended phase and never clears the word, and
`NextRound` clears the word whenever the rebuilt player order is non-empty. -/
theorem c6_invariant_amended :
    (∀ (room : Room) (p : Player) (w : String),
        room.current = some p.id → room.word = "" → w ∈ room.wordChoices →
        (HandleWordSelection p w room).word = w ∧
        (HandleWordSelection p w room).phase = room.phase) ∧
    (∀ room : Room, (EndGame room).phase = .ended ∧ (EndGame room).word = room.word) ∧
    (∀ room : Room,
        (UpdatePlayerOrder room).playerOrder ≠ [] → (NextRound room).word = "") := by
  refine ⟨fun room p w hcur hword hch => ⟨?_, ?_⟩,
    fun room => ⟨EndGame_phase room, EndGame_word room⟩,
    fun room h => NextRound_word room h⟩
  · unfold HandleWordSelection
    rw [hcur]
    dsimp only
    rw [if_neg (by simp), if_neg (by simp [hword]), if_neg (by simp [hch]),
      CancelPhaseTimer_word]
  · unfold HandleWordSelection
    rw [hcur]
    dsimp only
    rw [if_neg (by simp), if_neg (by simp [hword]), if_neg (by simp [hch]),
      CancelPhaseTimer_phase]

/-- C6 witness: the amended facts instantiated on the concrete rooms. -/
theorem c6_invariant_amended_witness :
    ((HandleWordSelection (mkPlayer "p1") "cat" roomC6).word = "cat" ∧
      (HandleWordSelection (mkPlayer "p1") "cat" roomC6).phase = roomC6.phase) ∧
    ((EndGame roomC6e).phase = .ended ∧ (EndGame roomC6e).word = roomC6e.word) ∧
    (NextRound roomC6e).word = "" :=
  ⟨c6_invariant_amended.1 roomC6 (mkPlayer "p1") "cat" rfl rfl (by decide),
   c6_invariant_amended.2.1 roomC6e,
   c6_invariant_amended.2.2 roomC6e (by decide)⟩

/-! ## C8: erase after pixel -/

/-- A canvas already holding a pixel entry at (1,1), used by the C8
counterexample. -/
def c8canvas : List PixelMessage :=
  [{ type := .pixel, x := some 1, y := some 1, color := "red", timestamp := 1, pixels := [] }]

/-- A pixel placement at (1,1). -/
def c8place : PixelMessage :=
  { type := .pixel, x := some 1, y := some 1, color := "blue", timestamp := 2, pixels := [] }

/-- An erase at (1,1). -/
def c8erase : PixelMessage :=
  { type := .erase, x := some 1, y := some 1, color := "", timestamp := 3, pixels := [] }

/-- C8 counterexample: placing and erasing at (1,1) over a canvas that
already held a pixel at (1,1) yields the empty canvas — the erase removes the
pre-existing entry too — not the never-placed canvas. -/
theorem c8_erase_counterexample :
    applyCanvasOp (applyCanvasOp c8canvas c8place) c8erase = [] ∧
    applyCanvasOp (applyCanvasOp c8canvas c8place) c8erase ≠ c8canvas := by
  constructor <;> decide

/-- C8 amended: applying `erase(x,y)` after `pixel(x,y)` equals applying the
erase alone (so it yields the never-placed canvas exactly when the prior
canvas holds no pixel-type entry at `(x,y)`; any such prior entries are
removed as well), and `batch_place` entries are always retained. -/
theorem c8_erase_amended :
    ∀ (canvas : List PixelMessage) (x y : Int) (c1 c2 : String) (t1 t2 : Int)
      (ps1 ps2 : List GridPosition),
      applyCanvasOp (applyCanvasOp canvas ⟨.pixel, some x, some y, c1, t1, ps1⟩)
          ⟨.erase, some x, some y, c2, t2, ps2⟩ =
        applyCanvasOp canvas ⟨.erase, some x, some y, c2, t2, ps2⟩ ∧
      ((∀ e ∈ canvas, ¬ (e.type = .pixel ∧ e.x = some x ∧ e.y = some y)) →
        applyCanvasOp (applyCanvasOp canvas ⟨.pixel, some x, some y, c1, t1, ps1⟩)
            ⟨.erase, some x, some y, c2, t2, ps2⟩ = canvas) ∧
      (∀ e ∈ canvas, e.type = .batchPlace →
        e ∈ applyCanvasOp (applyCanvasOp canvas ⟨.pixel, some x, some y, c1, t1, ps1⟩)
              ⟨.erase, some x, some y, c2, t2, ps2⟩) := by
  intro canvas x y c1 c2 t1 t2 ps1 ps2
  have hkey : applyCanvasOp (applyCanvasOp canvas ⟨.pixel, some x, some y, c1, t1, ps1⟩)
      ⟨.erase, some x, some y, c2, t2, ps2⟩ =
      applyCanvasOp canvas ⟨.erase, some x, some y, c2, t2, ps2⟩ := by
    simp only [applyCanvasOp, List.filter_append]
    simp
  refine ⟨hkey, fun hnone => ?_, fun e he hbp => ?_⟩
  · rw [hkey]
    simp only [applyCanvasOp]
    apply List.filter_eq_self.mpr
    intro e he
    simp only [decide_eq_true_eq]
    rintro ⟨h1, _, _, h4, h5⟩
    exact hnone e he ⟨h1, h4, h5⟩
  · rw [hkey]
    simp only [applyCanvasOp]
    apply List.mem_filter.mpr
    refine ⟨he, ?_⟩
    simp only [decide_eq_true_eq]
    rintro ⟨h1, _⟩
    rw [hbp] at h1
    exact absurd h1 (by decide)

/-- C8 witness: the amended law on the empty canvas, where the never-placed
form applies. -/
theorem c8_erase_amended_witness :
    applyCanvasOp (applyCanvasOp [] ⟨.pixel, some 3, some 4, "red", 1, []⟩)
        ⟨.erase, some 3, some 4, "", 2, []⟩ = [] :=
  (c8_erase_amended [] 3 4 "red" "" 1 2 [] []).2.1 (by intro e he; cases he)

/-! ## C9: drawer gating of pixel_draw and clear_canvas -/

/-- Current drawer with draw permission revoked, in the revealing phase:
exactly the situation the claim says must drop a `clear_canvas`. -/
def p1C9 : Player :=
  { mkPlayer "p1" with canDraw := false }

/-- Revealing-phase room with a non-empty canvas whose current drawer is
`p1C9` (with `canDraw=false`). -/
def roomC9 : Room :=
  { mkRoom [p1C9, mkPlayer "p2"] with
    phase := .revealing, current := some "p1", word := "cat",
    playerOrder := ["p1", "p2"], timerActive := true, timerDuration := 8,
    hasGameStarted := true,
    canvasState := [{ type := .pixel, x := some 2, y := some 3, color := "red",
                      timestamp := 1, pixels := [] }] }

/-- C9 counterexample: a `clear_canvas` from the current drawer while the
phase is revealing and `canDraw=false` is honored — the canvas is emptied and
`canvas_cleared` is broadcast — where the claim requires a silent drop. -/
theorem c9_gating_counterexample :
    roomC9.phase ≠ .drawing ∧ p1C9.canDraw = false ∧
      roomC9.current = some p1C9.id ∧ roomC9.canvasState ≠ [] ∧
      (ClearCanvas p1C9 roomC9).1.canvasState = [] ∧
      (ClearCanvas p1C9 roomC9).2 = ["canvas_cleared"] := by
  refine ⟨by decide, by decide, by decide, by decide, by decide, by decide⟩

/-- C9 amended: `pixel_draw` is honored only when the phase is drawing, the
sender is the current drawer, and the sender has `canDraw=true` — otherwise
it is silently dropped with no state change and no broadcast.  `clear_canvas`
is gated only on the sender being the current drawer: a non-drawer's request
is silently dropped, while the drawer's request is honored in every phase and
regardless of `canDraw`. -/
theorem c9_gating_amended :
    (∀ (p : Player) (msg : PixelMessage) (now : Int) (room : Room),
        ¬ (room.phase = .drawing ∧ room.current = some p.id ∧ p.canDraw = true) →
        HandlePixelDrawEnhanced p msg now room = (room, [])) ∧
    (∀ (p : Player) (room : Room), room.current ≠ some p.id →
        ClearCanvas p room = (room, [])) ∧
    (∀ (p : Player) (room : Room), room.current = some p.id →
        ClearCanvas p room =
          ({ room with canvasState := [] }, ["canvas_cleared"])) := by
  refine ⟨fun p msg now room h => ?_, fun p room h => ?_, fun p room h => ?_⟩
  · unfold HandlePixelDrawEnhanced
    by_cases h1 : room.phase = .drawing
    · by_cases h2 : room.current = some p.id
      · have h3 : p.canDraw = false := by
          cases hc : p.canDraw
          · rfl
          · exact absurd ⟨h1, h2, hc⟩ h
        rw [if_neg (by simp [h1]), if_neg (by simp [h2]), if_pos (by simp [h3])]
      · rw [if_neg (by simp [h1]), if_pos h2]
    · rw [if_pos h1]
  · unfold ClearCanvas
    rw [if_pos h]
  · unfold ClearCanvas
    rw [if_neg (by simp [h])]

/-- C9 witness: the amended gating at concrete inputs — a non-drawing-phase
pixel_draw from the drawer is dropped, a non-drawer clear_canvas is dropped,
and the drawer's clear_canvas empties the canvas. -/
theorem c9_gating_amended_witness :
    HandlePixelDrawEnhanced p1C9 c8place 9 roomC9 = (roomC9, []) ∧
    ClearCanvas (mkPlayer "p2") roomC9 = (roomC9, []) ∧
    ClearCanvas p1C9 roomC9 = ({ roomC9 with canvasState := [] }, ["canvas_cleared"]) :=
  ⟨c9_gating_amended.1 p1C9 c8place 9 roomC9 (by decide),
   c9_gating_amended.2.1 (mkPlayer "p2") roomC9 (by decide),
   c9_gating_amended.2.2 p1C9 roomC9 (by decide)⟩

/-! ## C3: AddPlayer at the room capacity -/

/-- A lobby room already holding exactly 8 (`MaxPlayersPerRoom`) players. -/
def roomC3 : Room :=
  mkRoom (["a1", "a2", "a3", "a4", "a5", "a6", "a7", "a8"].map mkPlayer)

/-- The ninth player attempting to join `roomC3`. -/
def p9C3 : Player := mkPlayer "p9"

/-- C3 counterexample: joining the full 8-player room does return an error,
but with side-effects — the ninth player has been inserted into
`room.Players` and remains there, and the `player_joined` broadcast (and the
welcome message) went out before the capacity check. -/
theorem c3_addplayer_counterexample :
    (AddPlayer roomC3 p9C3).error.isSome = true ∧
      ((AddPlayer roomC3 p9C3).room.players.any fun q => q.id = "p9") = true ∧
      (AddPlayer roomC3 p9C3).broadcasts = ["player_joined", "welcome_msg"] := by
  refine ⟨by decide, by decide, by decide⟩

/-- C3 amended: for a room with exactly 8 players and an empty current word
(a non-empty word would make the welcome-state masking panic, see C5),
`AddPlayer` for a fresh player returns the capacity error — but only after
inserting the player into `room.Players` (where they remain) and issuing the
`player_joined` broadcast and the welcome message; all other room fields are
unchanged. -/
theorem c3_addplayer_amended (room : Room) (p : Player)
    (hlen : room.players.length = 8) (hword : room.word = "")
    (hfresh : ∀ q ∈ room.players, q.id ≠ p.id) :
    (AddPlayer room p).error =
        some "max players reached for this room, please join another room" ∧
    (AddPlayer room p).panicked = false ∧
    (AddPlayer room p).room.players =
        room.players ++ [{ p with isConnected := true, isReady := false }] ∧
    (AddPlayer room p).broadcasts = ["player_joined", "welcome_msg"] ∧
    (AddPlayer room p).room.phase = room.phase ∧
    (AddPlayer room p).room.word = room.word ∧
    (AddPlayer room p).room.wordChoices = room.wordChoices ∧
    (AddPlayer room p).room.current = room.current ∧
    (AddPlayer room p).room.currentIndex = room.currentIndex ∧
    (AddPlayer room p).room.roundNumber = room.roundNumber ∧
    (AddPlayer room p).room.playerOrder = room.playerOrder ∧
    (AddPlayer room p).room.playersReady = room.playersReady ∧
    (AddPlayer room p).room.correctGuessers = room.correctGuessers ∧
    (AddPlayer room p).room.canvasState = room.canvasState ∧
    (AddPlayer room p).room.timerActive = room.timerActive := by
  have hany : (room.players.any fun q =>
      q.id = ({ p with isConnected := true, isReady := false } : Player).id) = false := by
    apply List.any_eq_false.mpr
    intro q hq
    simpa using hfresh q hq
  have hmask : GetMaskedWord room.word = some "" := by
    rw [hword]; rfl
  have hA : AddPlayer room p =
      { room :=
          { room with players :=
              room.players ++ [{ p with isConnected := true, isReady := false }] },
        broadcasts := ["player_joined", "welcome_msg"],
        error := some "max players reached for this room, please join another room",
        panicked := false } := by
    unfold AddPlayer
    dsimp only
    rw [if_neg (by rw [hany]; exact Bool.false_ne_true), hmask]
    dsimp only
    rw [if_pos (by simp [hlen])]
  rw [hA]
  refine ⟨rfl, rfl, rfl, rfl, rfl, rfl, rfl, rfl, rfl, rfl, rfl, rfl, rfl, rfl, rfl⟩

/-- C3 witness: the amended statement on the concrete full room. -/
theorem c3_addplayer_amended_witness :
    (AddPlayer roomC3 p9C3).error =
        some "max players reached for this room, please join another room" ∧
      (AddPlayer roomC3 p9C3).room.players =
        roomC3.players ++ [{ p9C3 with isConnected := true, isReady := false }] :=
  ⟨(c3_addplayer_amended roomC3 p9C3 (by decide) rfl (by decide)).1,
   (c3_addplayer_amended roomC3 p9C3 (by decide) rfl (by decide)).2.2.1⟩

/-! ## C10: guess matching -/

/-- C10: for a guesser who is not the drawer and has not yet guessed, the
handler takes the correct-guess path (broadcasting `guess_result`) exactly
when the trimmed, lower-cased current word is non-empty and equals the
trimmed, lower-cased guess; and while `room.Word` is empty every such guess
follows the incorrect-guess path: `guess_message` is broadcast, the
correct-guesser list is unchanged, and the only state change is the sender's
incremented `totalGuesses`. -/
theorem c10_guess_matching (p : Player) (g : String) (e : ℚ) (room : Room)
    (h1 : ¬ room.current = some p.id) (h2 : p.hasGuessed = false) :
    ((HandleGuessEnhanced p g e room).2 = ["guess_result"] ↔
      (goCleanWord room.word ≠ "" ∧ goCleanWord room.word = goCleanWord g)) ∧
    (room.word = "" →
      (HandleGuessEnhanced p g e room).2 = ["guess_message"] ∧
      (HandleGuessEnhanced p g e room).1.correctGuessers = room.correctGuessers ∧
      (HandleGuessEnhanced p g e room).1 =
        { room with players := updPlayers room.players p.id fun q =>
            { q with totalGuesses := q.totalGuesses + 1 } }) := by
  unfold HandleGuessEnhanced
  rw [if_neg h1, if_neg (by simp [h2])]
  dsimp only
  by_cases hcond : goCleanWord room.word = "" ∨ ¬ goCleanWord room.word = goCleanWord g
  · rw [if_pos hcond]
    constructor
    · constructor
      · intro habs
        have hx : (["guess_message"] : List String) = ["guess_result"] := habs
        exact absurd hx (by decide)
      · intro ⟨ha, hb⟩
        exact absurd hcond (by push_neg; exact ⟨ha, hb⟩)
    · intro hw
      exact ⟨rfl, rfl, rfl⟩
  · rw [if_neg hcond]
    push_neg at hcond
    constructor
    · constructor
      · intro _
        exact ⟨hcond.1, hcond.2⟩
      · intro _
        split <;> rfl
    · intro hw
      exact absurd (by rw [hw]; decide) hcond.1

/-- Drawing-phase room with word "cat" and drawer `p1`, used by the C10
witness. -/
def roomC10 : Room :=
  { mkRoom [{ mkPlayer "p1" with canDraw := true }, mkPlayer "p2"] with
    phase := .drawing, current := some "p1", word := "cat",
    playerOrder := ["p1", "p2"], timerActive := true, timerDuration := 120,
    hasGameStarted := true }

/-- C10 witness: the matching criterion instantiated on the concrete room —
the guess "  CAT " matches the word "cat" after trimming and lower-casing. -/
theorem c10_guess_matching_witness :
    ¬ roomC10.current = some (mkPlayer "p2").id ∧
      ((HandleGuessEnhanced (mkPlayer "p2") "  CAT " 5 roomC10).2 = ["guess_result"] ↔
        (goCleanWord roomC10.word ≠ "" ∧
          goCleanWord roomC10.word = goCleanWord "  CAT ")) :=
  ⟨by decide,
    (c10_guess_matching (mkPlayer "p2") "  CAT " 5 roomC10 (by decide) rfl).1⟩

/-! ## C1: behavior when every guesser has guessed -/

theorem updPlayers_all_guessed (ps : List Player) (pid cid : String)
    (f1 f2 : Player → Player)
    (hf1id : ∀ x, (f1 x).id = x.id) (hf1conn : ∀ x, (f1 x).isConnected = x.isConnected)
    (hf1hg : ∀ x, (f1 x).hasGuessed = true)
    (hf2id : ∀ x, (f2 x).id = x.id) (hf2conn : ∀ x, (f2 x).isConnected = x.isConnected)
    (hf2hg : ∀ x, (f2 x).hasGuessed = x.hasGuessed)
    (hall : ∀ q ∈ ps, q.isConnected = true → q.id ≠ cid →
      (q.hasGuessed = true ∨ q.id = pid)) :
    ((updPlayers (updPlayers ps pid f1) cid f2).all fun q =>
        (q.id == cid) || !q.isConnected || q.hasGuessed) = true := by
  apply List.all_eq_true.mpr
  intro q' hq'
  simp only [updPlayers, List.map_map, List.mem_map, Function.comp] at hq'
  obtain ⟨q0, hq0, rfl⟩ := hq'
  have hid1 : (if q0.id = pid then f1 q0 else q0).id = q0.id := by
    split
    · rw [hf1id]
    · rfl
  have hconn1 : (if q0.id = pid then f1 q0 else q0).isConnected = q0.isConnected := by
    split
    · rw [hf1conn]
    · rfl
  set q1 := if q0.id = pid then f1 q0 else q0 with hq1def
  have hid2 : (if q1.id = cid then f2 q1 else q1).id = q0.id := by
    split
    · rw [hf2id, hid1]
    · exact hid1
  have hconn2 : (if q1.id = cid then f2 q1 else q1).isConnected = q0.isConnected := by
    split
    · rw [hf2conn, hconn1]
    · exact hconn1
  have hhg2 : (if q1.id = cid then f2 q1 else q1).hasGuessed = q1.hasGuessed := by
    split
    · rw [hf2hg]
    · rfl
  simp only [Bool.or_eq_true, beq_iff_eq, Bool.not_eq_true', hid2, hconn2, hhg2]
  by_cases hc : q0.id = cid
  · exact Or.inl (Or.inl hc)
  · by_cases hconn : q0.isConnected = true
    · refine Or.inr ?_
      rcases hall q0 hq0 hconn hc with hg | hp
      · rw [hq1def]
        split
        · rw [hf1hg]
        · exact hg
      · rw [hq1def, if_pos hp, hf1hg]
    · exact Or.inl (Or.inr (by simp [Bool.not_eq_true] at hconn; exact hconn))

/-- Drawing-phase room with drawer `p1` and single guesser `p2`, used by the
C1 counterexample and witness. -/
def roomC1 : Room :=
  { mkRoom [{ mkPlayer "p1" with canDraw := true }, mkPlayer "p2"] with
    phase := .drawing, current := some "p1", word := "cat",
    playerOrder := ["p1", "p2"], timerActive := true, timerDuration := 120,
    hasGameStarted := true }

/-- C1 counterexample: in the drawing phase with one guesser, the guesser's
correct guess makes every connected non-drawer player have
`hasGuessed=true`, yet the room ends up in the waiting phase (NextRound ran),
not in the revealing phase the claim requires. -/
theorem c1_everyone_guessed_counterexample :
    (HandleGuessEnhanced (mkPlayer "p2") "cat" 5 roomC1).1.phase ≠ .revealing ∧
      (HandleGuessEnhanced (mkPlayer "p2") "cat" 5 roomC1).1.phase = .waiting ∧
      (HandleGuessEnhanced (mkPlayer "p2") "cat" 5 roomC1).2 = ["guess_result"] := by
  refine ⟨by decide, by decide, by decide⟩

/-- C1 amended: when a correct guess makes every connected non-drawer player
have `hasGuessed=true`, `HandleGuessEnhanced` cancels the phase timer and
advances directly via `NextRound` — the room ends in the waiting phase (or
ended, when the game is over), never in the revealing phase, so
`StartRevealingPhase` does not run on this path. -/
theorem c1_everyone_guessed_amended (room : Room) (p : Player) (g : String)
    (e : ℚ) (cid : String)
    (_hphase : room.phase = .drawing)
    (hcur : room.current = some cid)
    (hnotdrawer : cid ≠ p.id)
    (hnotguessed : p.hasGuessed = false)
    (htarget : goCleanWord room.word ≠ "")
    (hmatch : goCleanWord room.word = goCleanWord g)
    (hall : ∀ q ∈ room.players, q.isConnected = true → q.id ≠ cid →
        (q.hasGuessed = true ∨ q.id = p.id)) :
    ((HandleGuessEnhanced p g e room).1.phase = .waiting ∨
      (HandleGuessEnhanced p g e room).1.phase = .ended) ∧
    (HandleGuessEnhanced p g e room).2 = ["guess_result"] := by
  have hnd : ¬ room.current = some p.id := by
    rw [hcur]
    simp only [Option.some.injEq]
    exact hnotdrawer
  have hcond : ¬ (goCleanWord room.word = "" ∨ goCleanWord room.word ≠ goCleanWord g) := by
    push_neg
    exact ⟨htarget, hmatch⟩
  unfold HandleGuessEnhanced
  rw [if_neg hnd, if_neg (by simp [hnotguessed])]
  dsimp only
  rw [if_neg hcond]
  rw [hcur]
  dsimp only
  constructor
  · split
    · exact NextRound_phase _
    · rename_i hfalse
      exact (hfalse
        (updPlayers_all_guessed room.players p.id cid _ _ (fun x => rfl) (fun x => rfl)
          (fun x => rfl) (fun x => rfl) (fun x => rfl) (fun x => rfl) hall)).elim
  · split <;> rfl

/-- C1 witness: the amended statement instantiated on the concrete
two-player room. -/
theorem c1_everyone_guessed_amended_witness :
    roomC1.phase = .drawing ∧
      ((HandleGuessEnhanced (mkPlayer "p2") "cat" 5 roomC1).1.phase = .waiting ∨
        (HandleGuessEnhanced (mkPlayer "p2") "cat" 5 roomC1).1.phase = .ended) :=
  ⟨rfl,
    (c1_everyone_guessed_amended roomC1 (mkPlayer "p2") "cat" 5 "p1" rfl rfl (by decide)
      rfl (by decide) (by decide) (by decide)).1⟩
